import Mathlib

/-
  Verification development for the TikTokCrawlSel crawler
  (src/src/crawler/tiktok_crawler.py and src/src/database/repositories.py).

  Python strings are embedded as lists of characters; Python's `str.split(sep)`
  for a one-character separator is `splitChar`; `float(...)` on plain decimal
  literals is embedded as the exact decimal rational (exponent / inf / nan /
  whitespace / underscore forms never arise from the crawler's inputs and are
  mapped to failure); `int(...)` applied to a float truncates toward zero.
  IEEE-754 binary64 rounding of the parsed float value and of products is
  NOT modelled, so theorems evaluate parse_tiktok_number only at concrete
  inputs on which `int()` of the product is insensitive to that rounding.
  Fallible Python code (a `try`/bare-`except` returning a default) is embedded
  by returning the default on the branches where the Python code raises.
-/

namespace TTK

abbrev Str := List Char

/-- `s.split(c)` for a single-character separator `c`, CPython semantics:
the result is the (always nonempty) list of maximal `c`-free segments. -/
def splitChar (c : Char) : Str → List Str
  | [] => [[]]
  | x :: xs =>
    if x = c then [] :: splitChar c xs
    else
      match splitChar c xs with
      | [] => [[x]]
      | h :: t => (x :: h) :: t

/-- `s.endswith(suffix)`. -/
def endswith (s suffix : Str) : Bool :=
  List.isSuffixOf suffix s

/-- Value of a decimal-digit character. -/
def digitVal (c : Char) : Nat := c.toNat - 48

/-- Value of a string of decimal digits (most significant first). -/
def digitsVal (s : Str) : Nat := s.foldl (fun acc c => 10 * acc + digitVal c) 0

/-- Helper for `pyInt`: a nonempty all-digit string parses to its value. -/
def digitsOf (s : Str) : Option Nat :=
  if s ≠ [] ∧ s.all Char.isDigit then some (digitsVal s) else none

/-- CPython `int(s)` on the shapes the crawler can meet: an optional sign
followed by decimal digits parses; everything else raises (`none`).
(ASCII digits only; surrounding whitespace and underscores never arise.) -/
def pyInt (s : Str) : Option Int :=
  match s with
  | [] => none
  | c :: rest =>
    if c = '-' then (digitsOf rest).map (fun n => -(Int.ofNat n))
    else if c = '+' then (digitsOf rest).map (fun n => Int.ofNat n)
    else (digitsOf s).map (fun n => Int.ofNat n)

/-- CPython `float(s)` on plain decimal literals, embedded as the exact
decimal rational: `[sign] digits [. digits]` with at least one digit
overall.  Other accepted CPython shapes (exponents, `inf`, `nan`,
whitespace) never arise from the crawler's inputs and are mapped to
failure.  CPython rounds the decimal value to the nearest binary64 float
(float("0.99999999999999999") is 1.0); that rounding is not modelled, so
facts stated through this embedding are confined to inputs on which it
cannot affect the observed integer result. -/
def pyFloatUnsigned (s : Str) : Option ℚ :=
  if '.' ∈ s then
    match splitChar '.' s with
    | [a, b] =>
      if (a ++ b) ≠ [] ∧ (a ++ b).all Char.isDigit then
        some ((digitsVal (a ++ b) : ℚ) / 10 ^ b.length)
      else none
    | _ => none
  else if s ≠ [] ∧ s.all Char.isDigit then some ((digitsVal s : ℚ)) else none

/-- Sign handling of CPython `float(s)`; the value is the exact decimal
rational of `pyFloatUnsigned`, with the same binary64 caveat. -/
def pyFloat (s : Str) : Option ℚ :=
  match s with
  | [] => none
  | c :: rest =>
    if c = '-' then (pyFloatUnsigned rest).map (fun q => -q)
    else if c = '+' then pyFloatUnsigned rest
    else pyFloatUnsigned s

/-- CPython `int(x)` on a float/rational: truncation toward zero. -/
def pyTrunc (q : ℚ) : Int :=
  if q < 0 then -⌊-q⌋ else ⌊q⌋

/-- Python truthiness of an optional string: `None` and `""` are falsy. -/
def pyFalsy (s : Option Str) : Bool :=
  match s with
  | none => true
  | some t => t = []

/-! ### extract_thumbnail_essence (tiktok_crawler.py lines 22-40) -/

/-- `extract_thumbnail_essence(thumbnail_url)`: strip the query string, take
the last path segment, truncate at the first "." and then at the first "~".
(The `try`/`except` fallback of the source is dead code for string input:
none of these operations can raise.) -/
def extract_thumbnail_essence (thumbnail_url : Str) : Str :=
  let path := if '?' ∈ thumbnail_url
              then (splitChar '?' thumbnail_url).headD []
              else thumbnail_url
  let file_name := (splitChar '/' path).getLastD []
  let file_name2 := if '.' ∈ file_name
                    then (splitChar '.' file_name).headD []
                    else file_name
  let file_name3 := if '~' ∈ file_name2
                    then (splitChar '~' file_name2).headD []
                    else file_name2
  file_name3

/-! ### parse_tiktok_time (tiktok_crawler.py lines 43-93) -/

structure DateTime where
  year : Int
  month : Int
  day : Int
  hour : Int
  minute : Int
  second : Int
deriving DecidableEq

/-- Proleptic-Gregorian leap year, as used by CPython `datetime`. -/
def isLeap (y : Int) : Bool :=
  (y % 4 == 0 && y % 100 != 0) || y % 400 == 0

def daysInMonth (y m : Int) : Int :=
  if m = 2 then (if isLeap y then 29 else 28)
  else if m = 4 ∨ m = 6 ∨ m = 9 ∨ m = 11 then 30
  else 31

/-- The argument ranges accepted by the CPython `datetime(year, month, day, ...)`
constructor; outside them it raises ValueError (caught by the source's bare
`except`, yielding `None`). -/
def dateValid (y m d : Int) : Bool :=
  1 ≤ y && y ≤ 9999 && 1 ≤ m && m ≤ 12 && 1 ≤ d && d ≤ daysInMonth y m

/-- `parse_tiktok_time(time_text, base_time)`.

The module imports only `datetime` from the `datetime` module, never
`timedelta` (tiktok_crawler.py line 8); each relative-suffix branch
("分前", "時間前", "日前") therefore raises `NameError` at
`base_time - timedelta(...)`, which the bare `except` swallows, so every
relative-suffix input returns `None`.  The "M-D" branch infers the year
(previous year exactly when the parsed month strictly exceeds the base
month) and builds `datetime(year, month, day, base.hour, base.minute)`
(seconds default to 0); the "YYYY-MM-DD" branch takes all three fields from
the text.  `datetime` raises on out-of-range fields, giving `None`. -/
def parse_tiktok_time (time_text : Str) (base_time : DateTime) : Option DateTime :=
  if time_text = [] then none
  else if endswith time_text ("分前".toList) then none
  else if endswith time_text ("時間前".toList) then none
  else if endswith time_text ("日前".toList) then none
  else if '-' ∈ time_text ∧ (splitChar '-' time_text).length = 2 then
    match (splitChar '-' time_text).headD [], (splitChar '-' time_text).getLastD [] with
    | ms, ds =>
      match pyInt ms, pyInt ds with
      | some month, some day =>
        let year := if month > base_time.month then base_time.year - 1 else base_time.year
        if dateValid year month day then
          some ⟨year, month, day, base_time.hour, base_time.minute, 0⟩
        else none
      | _, _ => none
  else if '-' ∈ time_text ∧ (splitChar '-' time_text).length = 3 then
    match splitChar '-' time_text with
    | [ys, ms, ds] =>
      match pyInt ys, pyInt ms, pyInt ds with
      | some year, some month, some day =>
        if dateValid year month day then
          some ⟨year, month, day, base_time.hour, base_time.minute, 0⟩
        else none
      | _, _, _ => none
    | _ => none
  else none

/-! ### parse_tiktok_video_url (tiktok_crawler.py lines 96-131) -/

/-- `parse_tiktok_video_url(url)`: empty input gives `(None, None)`;
otherwise strip the query string, split on "/", return the last segment as
the video id (the split list is never empty, so the id is always produced)
and the first "@"-prefixed segment, marker stripped, as the owner handle.
None of the operations can raise, so the `except` branch is dead code. -/
def parse_tiktok_video_url (url : Str) : Option Str × Option Str :=
  if url = [] then (none, none)
  else
    let url2 := if '?' ∈ url then (splitChar '?' url).headD [] else url
    let parts := splitChar '/' url2
    let video_id := parts.getLastD []
    let account_username :=
      (parts.find? (fun p => p.headD ' ' = '@' && decide (p ≠ []))).map (fun p => p.drop 1)
    (some video_id, (account_username : Option Str))

/-! ### parse_tiktok_number (tiktok_crawler.py lines 134-176) -/

/-- Unit multipliers of `parse_tiktok_number`. -/
def multiplier (c : Char) : Option ℚ :=
  if c = 'K' then some 1000
  else if c = 'M' then some 1000000
  else if c = 'G' then some 1000000000
  else if c = 'B' then some 1000000000
  else none

/-- `parse_tiktok_number(text)`.  `None`/empty are falsy and give `None`;
commas are removed; if the comma-free text minus dots is nonempty and all
digits, it is parsed by `int(float(text))` (a multi-dot string makes
`float` raise, giving `None`); otherwise the last character, uppercased,
must be a K/M/G/B unit, the prefix is parsed as a float and the truncated
product returned; any failure yields `None` (the function never raises). -/
def parse_tiktok_number (text : Option Str) : Option Int :=
  match text with
  | none => none
  | some t0 =>
    if t0 = [] then none
    else
      let t := t0.filter (fun c => !(c == ','))
      let digitsOnly := t.filter (fun c => !(c == '.'))
      if digitsOnly ≠ [] ∧ digitsOnly.all Char.isDigit then
        match pyFloat t with
        | some q => some (pyTrunc q)
        | none => none
      else
        match t.getLast? with
        | none => none
        | some c =>
          match multiplier c.toUpper with
          | some m =>
            match pyFloat (t.dropLast) with
            | some q => some (pyTrunc (q * m))
            | none => none
          | none => none

/-! ### Record types (database/models.py) and the correlator
(parse_and_save_video_light_datas, tiktok_crawler.py lines 583-623).
The auto-assigned `id` and effectful `crawled_at` fields are omitted. -/

/-- One entry of `light_like_datas` as built by
`get_video_light_like_datas_from_user_page` (lines 374-382):
`video_id` and `account_username` come from `parse_tiktok_video_url` and
may be `None`. -/
structure LikeData where
  video_url : Str
  video_id : Option Str
  account_username : Option Str
  video_thumbnail_url : Str
  video_alt_info_text : Str
  like_count_text : Str
  crawling_algorithm : Str
deriving DecidableEq

/-- One entry of `light_play_datas` as built by
`get_video_light_play_datas_from_video_page_creator_videos_tab`
(lines 510-513). -/
structure PlayData where
  video_thumbnail_url : Str
  play_count_text : Str
deriving DecidableEq

/-- `VideoLightRawData` (models.py lines 52-65), sans `id`/`crawled_at`. -/
structure VideoLightRawData where
  video_url : Str
  video_id : Option Str
  account_username : Option Str
  video_thumbnail_url : Str
  video_alt_info_text : Str
  play_count_text : Option Str
  play_count : Option Int
  like_count_text : Str
  like_count : Option Int
  crawling_algorithm : Str
deriving DecidableEq

/-- The fingerprint→play-count-text map built from `light_play_datas`
(lines 587-590).  A Python dict built by repeated assignment is
last-write-wins, so lookup returns the value of the last binding. -/
def play_count_map (light_play_datas : List PlayData) : List (Str × Str) :=
  light_play_datas.map
    (fun p => (extract_thumbnail_essence p.video_thumbnail_url, p.play_count_text))

/-- `dict.get(key)`: the last-written binding of `key`, or `None`. -/
def dict_get (m : List (Str × Str)) (k : Str) : Option Str :=
  (m.reverse.find? (fun e => decide (e.1 = k))).map (fun e => e.2)

/-- The `VideoLightRawData(...)` record built for one `like_data`
(lines 600-613). -/
def make_light_record (l : LikeData) (play_count_text : Option Str) : VideoLightRawData :=
  { video_url := l.video_url
    video_id := l.video_id
    account_username := l.account_username
    video_thumbnail_url := l.video_thumbnail_url
    video_alt_info_text := l.video_alt_info_text
    play_count_text := play_count_text
    play_count := parse_tiktok_number play_count_text
    like_count_text := l.like_count_text
    like_count := parse_tiktok_number (some l.like_count_text)
    crawling_algorithm := l.crawling_algorithm }

/-- Whether the loop body of lines 594-598 counts this `like_data` as a
play-count miss: `if not play_count_text` is true for `None` and `""`. -/
def correlate_miss (m : List (Str × Str)) (l : LikeData) : Bool :=
  pyFalsy (dict_get m (extract_thumbnail_essence l.video_thumbnail_url))

/-- The loop of lines 593-616: emits one record per `like_data` (saved via
`save_video_light_data`) and accumulates `play_count_not_found`. -/
def correlate_go (m : List (Str × Str)) : List LikeData → List VideoLightRawData × Nat
  | [] => ([], 0)
  | l :: ls =>
    let play_count_text := dict_get m (extract_thumbnail_essence l.video_thumbnail_url)
    let rest := correlate_go m ls
    (make_light_record l play_count_text :: rest.1,
     (if pyFalsy play_count_text then 1 else 0) + rest.2)

/-- `parse_and_save_video_light_datas(light_like_datas, light_play_datas)`:
the emitted records in order, paired with the final
`play_count_not_found` counter. -/
def parse_and_save_video_light_datas
    (light_like_datas : List LikeData) (light_play_datas : List PlayData) :
    List VideoLightRawData × Nat :=
  correlate_go (play_count_map light_play_datas) light_like_datas

/-! ### Heavy-mode dedup scan (crawl_favorite_accounts_heavy,
tiktok_crawler.py lines 711-714). -/

/-- `like_data["video_id"] in existing_video_ids` (`None` is in no set of
strings). -/
def idSeen (existing_video_ids : List Str) (like_data : LikeData) : Bool :=
  match like_data.video_id with
  | some v => existing_video_ids.contains v
  | none => false

/-- The videos reached for heavy extraction by the loop
`for like_data in light_like_datas[:max_videos_per_account]` with
`break` at the first id already in `existing_video_ids` (lines 711-714);
detail-page navigation is assumed to succeed (its failures are
browser-side and `continue`/`break` on selenium errors are out of scope
of the dedup rule). -/
def crawl_heavy_scan (existing_video_ids : List Str)
    (max_videos_per_account : Nat) (light_like_datas : List LikeData) :
    List LikeData :=
  (light_like_datas.take max_videos_per_account).takeWhile
    (fun l => !idSeen existing_video_ids l)

/-! ### Batch-loop failure isolation (crawl_favorite_accounts_light lines
641-674, crawl_favorite_accounts_heavy lines 696-736). -/

/-- A raised Python error: `except Exception` catches subclasses of
`Exception` but not `KeyboardInterrupt` (a `BaseException`). -/
inductive PyError where
  | keyboardInterrupt
  | exception (message : Str)
deriving DecidableEq

/-- The per-account batch loop: the whole per-account body (navigation,
extraction, saving — all driven by the external browser) is abstracted as
`step`; the loop structure `for account in favorite_accounts: try: ...
except Exception: logger.exception(...); continue` is modeled exactly.
Returns the accounts whose body was attempted, or the uncaught error. -/
def crawl_favorite_accounts_batch (step : Str → Except PyError Unit) :
    List Str → Except PyError (List Str)
  | [] => .ok []
  | t :: ts =>
    match step t with
    | .ok _ => (crawl_favorite_accounts_batch step ts).map (fun done => t :: done)
    | .error .keyboardInterrupt => .error .keyboardInterrupt
    | .error (.exception _) =>
      (crawl_favorite_accounts_batch step ts).map (fun done => t :: done)

/-! ### Per-target outcome handling in the batch loops
(crawl_favorite_accounts_light lines 641-674, navigate_to_user_page lines
324-339, repositories.py lines 100-113).

A target account that no longer exists manifests as
`navigate_to_user_page` failing: the wait for the primary content marker
times out and the generic `except` logs and returns False (lines
337-339).  The source performs no page-title check and does not
distinguish an account-not-found page from any other navigation failure;
the batch loop then just `continue`s (line 647).  The persistence helper
`update_favorite_user_is_alive` is declared in repositories.py but has no
caller anywhere in the repository, so no code path ever writes a target's
liveness flag. -/

/-- Outcome of the per-target navigation for one target account.
`userNotFound` is the case in which the target's page shows the
account-not-found condition (the primary content marker never appears);
`pageStateFailure` is any other navigation failure.  The source treats
both identically: `navigate_to_user_page` returns False and the batch
loop continues. -/
inductive TargetOutcome where
  | collected (records : List VideoLightRawData)
  | userNotFound
  | pageStateFailure
deriving DecidableEq

/-- Externally visible orchestrator state: the per-target liveness flags
(favorite_accounts' favorite_account_is_alive column) and the light
records written, tagged by target. -/
structure OrchState where
  liveness : Str → Bool
  written : List (Str × VideoLightRawData)

/-- `update_favorite_user_is_alive(username, is_alive)` (repositories.py
lines 100-113) acting on the modelled state.  It is declared in the
source with no caller; likewise `process_target` below never invokes
it. -/
def update_favorite_user_is_alive (st : OrchState) (username : Str)
    (is_alive : Bool) : OrchState :=
  { st with liveness := fun u => if u = username then is_alive else st.liveness u }

/-- Handling of one target's outcome, from the source: a fully collected
target's records are written (line 663); on the account-not-found
condition — exactly as on any other navigation failure —
`navigate_to_user_page` returns False and the loop continues with no
write of any kind: no record, and no liveness update, since
`update_favorite_user_is_alive` is never called. -/
def process_target (outcome : Str → TargetOutcome) (st : OrchState)
    (t : Str) : OrchState :=
  match outcome t with
  | .collected records => { st with written := st.written ++ records.map (fun r => (t, r)) }
  | .userNotFound => st
  | .pageStateFailure => st

/-- The batch over targets (lines 641-674): always continues to the next
target. -/
def run_target_batch (outcome : Str → TargetOutcome) (st : OrchState) :
    List Str → OrchState
  | [] => st
  | t :: ts => run_target_batch outcome (process_target outcome st t) ts

/-! ### Concrete sample data used by witnesses and counterexamples -/

/-- Sample like-pass entry for a video with the given id. -/
def mkSampleLike (s : String) : LikeData :=
  { video_url := ("https://www.tiktok.com/@user/video/" ++ s).toList
    video_id := some s.toList
    account_username := some ("user".toList)
    video_thumbnail_url := ("https://cdn.example.com/thumbs/" ++ s ++ ".jpeg").toList
    video_alt_info_text := ("alt".toList)
    like_count_text := ("1.5K".toList)
    crawling_algorithm := ("selenium-human-like-1".toList) }

/-- Ten scanned videos in descending recency order, ids "1".."10". -/
def tenScannedVideos : List LikeData :=
  ["1", "2", "3", "4", "5", "6", "7", "8", "9", "10"].map mkSampleLike

/-- The ids of the first three (most recent) of the ten scanned videos. -/
def firstThreeIds : List Str := ["1", "2", "3"].map String.toList

/-- Sample like pass: videos "1" and "2". -/
def sampleLikePass : List LikeData := [mkSampleLike ("1"), mkSampleLike ("2")]

/-- Sample play pass matching only video "1" (same asset, query suffix). -/
def samplePlayPass : List PlayData :=
  [{ video_thumbnail_url := ("https://cdn.example.com/thumbs/1.jpeg?x=1".toList)
     play_count_text := ("3.78M".toList) }]

/-- Sample play pass binding video "1"'s fingerprint to empty text. -/
def samplePlayPassEmpty : List PlayData :=
  [{ video_thumbnail_url := ("https://cdn.example.com/thumbs/1.jpeg".toList)
     play_count_text := [] }]

/-- Sample per-target outcome: every target is missing. -/
def sampleOutcome : Str → TargetOutcome := fun _ => TargetOutcome.userNotFound

/-- Sample orchestrator state: every target alive, nothing written. -/
def sampleOrchState : OrchState := { liveness := fun _ => true, written := [] }

/-- Sample per-account step: the body fails with an ordinary exception on
account "bob" and succeeds elsewhere. -/
def sampleStep : Str → Except PyError Unit := fun t =>
  if t = "bob".toList then Except.error (PyError.exception ("boom".toList))
  else Except.ok ()

/-! ## Helper lemmas about the string primitives -/

theorem splitChar_ne_nil (c : Char) (s : Str) : splitChar c s ≠ [] := by
  cases s with
  | nil => simp [splitChar]
  | cons x xs =>
    simp only [splitChar]
    split
    · simp
    · split <;> simp

theorem headD_mem_of_ne_nil {α : Type} (l : List α) (d : α) (h : l ≠ []) :
    l.headD d ∈ l := by
  cases l with
  | nil => exact absurd rfl h
  | cons a t => simp

theorem getLastD_mem_of_ne_nil {α : Type} :
    ∀ (l : List α) (d : α), l ≠ [] → l.getLastD d ∈ l := by
  intro l
  induction l with
  | nil => intro d h; exact absurd rfl h
  | cons a t ih =>
    intro d _
    cases t with
    | nil => simp [List.getLastD]
    | cons b u =>
      rw [List.getLastD_cons]
      exact List.mem_cons_of_mem a (ih a (by simp))

theorem mem_of_mem_splitChar {c : Char} {s : Str} :
    ∀ {seg : Str}, seg ∈ splitChar c s → ∀ {x : Char}, x ∈ seg → x ∈ s := by
  induction s with
  | nil =>
    intro seg hseg x hx
    simp [splitChar] at hseg
    subst hseg
    simp at hx
  | cons y ys ih =>
    intro seg hseg x hx
    simp only [splitChar] at hseg
    by_cases hy : y = c
    · rw [if_pos hy] at hseg
      rcases List.mem_cons.mp hseg with h | h
      · subst h; simp at hx
      · exact List.mem_cons_of_mem _ (ih h hx)
    · rw [if_neg hy] at hseg
      rcases hr : splitChar c ys with _ | ⟨h0, t⟩
      · exact absurd hr (splitChar_ne_nil c ys)
      · rw [hr] at hseg
        rcases List.mem_cons.mp hseg with h | h
        · subst h
          rcases List.mem_cons.mp hx with h2 | h2
          · subst h2; exact List.mem_cons_self _ _
          · exact List.mem_cons_of_mem _
              (ih (hr ▸ List.mem_cons_self h0 t) h2)
        · exact List.mem_cons_of_mem _
            (ih (hr ▸ List.mem_cons_of_mem h0 h) hx)

theorem not_mem_headD_splitChar (c : Char) (s : Str) :
    c ∉ (splitChar c s).headD [] := by
  induction s with
  | nil => simp [splitChar]
  | cons y ys ih =>
    simp only [splitChar]
    by_cases hy : y = c
    · rw [if_pos hy]; simp
    · rw [if_neg hy]
      rcases hr : splitChar c ys with _ | ⟨h0, t⟩
      · exact absurd hr (splitChar_ne_nil c ys)
      · rw [hr] at ih
        simp only [List.headD_cons] at ih ⊢
        intro hmem
        rcases List.mem_cons.mp hmem with h | h
        · exact hy h.symm
        · exact ih h

theorem not_mem_getLastD_splitChar (c : Char) (s : Str) :
    c ∉ (splitChar c s).getLastD [] := by
  induction s with
  | nil => simp [splitChar, List.getLastD_cons, List.getLastD_nil]
  | cons y ys ih =>
    simp only [splitChar]
    by_cases hy : y = c
    · rw [if_pos hy, List.getLastD_cons]
      exact ih
    · rw [if_neg hy]
      rcases hr : splitChar c ys with _ | ⟨h0, t⟩
      · exact absurd hr (splitChar_ne_nil c ys)
      · rw [hr, List.getLastD_cons] at ih
        cases t with
        | nil =>
          rw [List.getLastD_nil] at ih
          rw [List.getLastD_cons, List.getLastD_nil]
          intro hmem
          rcases List.mem_cons.mp hmem with h | h
          · exact hy h.symm
          · exact ih h
        | cons b u =>
          rw [List.getLastD_cons] at ih
          rw [List.getLastD_cons, List.getLastD_cons]
          exact ih

theorem splitChar_of_not_mem {c : Char} {s : Str} (h : c ∉ s) :
    splitChar c s = [s] := by
  induction s with
  | nil => simp [splitChar]
  | cons y ys ih =>
    simp only [splitChar]
    have hy : y ≠ c := fun hh => h (hh ▸ List.mem_cons_self y ys)
    rw [if_neg hy, ih (fun hm => h (List.mem_cons_of_mem y hm))]

theorem splitChar_append_cons {c : Char} {a : Str} (b : Str) (h : c ∉ a) :
    splitChar c (a ++ c :: b) = a :: splitChar c b := by
  induction a with
  | nil => simp [splitChar]
  | cons x a2 ih =>
    have hx : x ≠ c := fun hh => h (hh ▸ List.mem_cons_self x a2)
    have ih2 := ih (fun hm => h (List.mem_cons_of_mem x hm))
    rw [List.cons_append]
    simp only [splitChar, if_neg hx, List.append_eq]
    rw [ih2]

theorem splitChar_pair {c : Char} {a b : Str} (ha : c ∉ a) (hb : c ∉ b) :
    splitChar c (a ++ c :: b) = [a, b] := by
  rw [splitChar_append_cons b ha, splitChar_of_not_mem hb]

theorem mem_of_mem_headD_splitChar {c x : Char} {s : Str}
    (h : x ∈ (splitChar c s).headD []) : x ∈ s :=
  mem_of_mem_splitChar
    (headD_mem_of_ne_nil _ _ (splitChar_ne_nil c s)) h

theorem mem_of_mem_getLastD_splitChar {c x : Char} {s : Str}
    (h : x ∈ (splitChar c s).getLastD []) : x ∈ s :=
  mem_of_mem_splitChar
    (getLastD_mem_of_ne_nil _ _ (splitChar_ne_nil c s)) h

/-! ## Lemmas about extract_thumbnail_essence -/

theorem extract_thumbnail_essence_no_delims (u : Str) :
    '?' ∉ extract_thumbnail_essence u ∧ '/' ∉ extract_thumbnail_essence u ∧
    '.' ∉ extract_thumbnail_essence u ∧ '~' ∉ extract_thumbnail_essence u := by
  simp only [extract_thumbnail_essence]
  by_cases hq : '?' ∈ u
  all_goals
    simp only [if_pos, if_neg, hq, if_true, if_false, ite_true, ite_false]
  case pos =>
    have hqp : '?' ∉ (splitChar '?' u).headD [] := not_mem_headD_splitChar '?' u
    have hqf : '?' ∉ (splitChar '/' ((splitChar '?' u).headD [])).getLastD [] :=
      fun h => hqp (mem_of_mem_getLastD_splitChar h)
    have hsf : '/' ∉ (splitChar '/' ((splitChar '?' u).headD [])).getLastD [] :=
      not_mem_getLastD_splitChar '/' _
    generalize hfn : (splitChar '/' ((splitChar '?' u).headD [])).getLastD [] = fn at hqf hsf
    clear hfn hqp
    by_cases hd : '.' ∈ fn
    all_goals simp only [hd, if_true, if_false, ite_true, ite_false]
    case pos =>
      have hq2 : '?' ∉ (splitChar '.' fn).headD [] :=
        fun h => hqf (mem_of_mem_headD_splitChar h)
      have hs2 : '/' ∉ (splitChar '.' fn).headD [] :=
        fun h => hsf (mem_of_mem_headD_splitChar h)
      have hd2 : '.' ∉ (splitChar '.' fn).headD [] := not_mem_headD_splitChar '.' fn
      generalize hfn2 : (splitChar '.' fn).headD [] = fn2 at hq2 hs2 hd2
      clear hfn2 hqf hsf hd
      by_cases ht : '~' ∈ fn2
      all_goals simp only [ht, if_true, if_false, ite_true, ite_false]
      case pos =>
        exact ⟨fun h => hq2 (mem_of_mem_headD_splitChar h),
               fun h => hs2 (mem_of_mem_headD_splitChar h),
               fun h => hd2 (mem_of_mem_headD_splitChar h),
               not_mem_headD_splitChar '~' fn2⟩
      case neg => exact ⟨hq2, hs2, hd2, not_false⟩
    case neg =>
      by_cases ht : '~' ∈ fn
      all_goals simp only [ht, if_true, if_false, ite_true, ite_false]
      case pos =>
        exact ⟨fun h => hqf (mem_of_mem_headD_splitChar h),
               fun h => hsf (mem_of_mem_headD_splitChar h),
               fun h => hd (mem_of_mem_headD_splitChar h),
               not_mem_headD_splitChar '~' fn⟩
      case neg => exact ⟨hqf, hsf, hd, not_false⟩
  case neg =>
    have hqf : '?' ∉ (splitChar '/' u).getLastD [] :=
      fun h => hq (mem_of_mem_getLastD_splitChar h)
    have hsf : '/' ∉ (splitChar '/' u).getLastD [] :=
      not_mem_getLastD_splitChar '/' _
    generalize hfn : (splitChar '/' u).getLastD [] = fn at hqf hsf
    clear hfn hq
    by_cases hd : '.' ∈ fn
    all_goals simp only [hd, if_true, if_false, ite_true, ite_false]
    case pos =>
      have hq2 : '?' ∉ (splitChar '.' fn).headD [] :=
        fun h => hqf (mem_of_mem_headD_splitChar h)
      have hs2 : '/' ∉ (splitChar '.' fn).headD [] :=
        fun h => hsf (mem_of_mem_headD_splitChar h)
      have hd2 : '.' ∉ (splitChar '.' fn).headD [] := not_mem_headD_splitChar '.' fn
      generalize hfn2 : (splitChar '.' fn).headD [] = fn2 at hq2 hs2 hd2
      clear hfn2 hqf hsf hd
      by_cases ht : '~' ∈ fn2
      all_goals simp only [ht, if_true, if_false, ite_true, ite_false]
      case pos =>
        exact ⟨fun h => hq2 (mem_of_mem_headD_splitChar h),
               fun h => hs2 (mem_of_mem_headD_splitChar h),
               fun h => hd2 (mem_of_mem_headD_splitChar h),
               not_mem_headD_splitChar '~' fn2⟩
      case neg => exact ⟨hq2, hs2, hd2, not_false⟩
    case neg =>
      by_cases ht : '~' ∈ fn
      all_goals simp only [ht, if_true, if_false, ite_true, ite_false]
      case pos =>
        exact ⟨fun h => hqf (mem_of_mem_headD_splitChar h),
               fun h => hsf (mem_of_mem_headD_splitChar h),
               fun h => hd (mem_of_mem_headD_splitChar h),
               not_mem_headD_splitChar '~' fn⟩
      case neg => exact ⟨hqf, hsf, hd, not_false⟩

theorem extract_thumbnail_essence_fixed {e : Str}
    (hq : '?' ∉ e) (hs : '/' ∉ e) (hd : '.' ∉ e) (ht : '~' ∉ e) :
    extract_thumbnail_essence e = e := by
  simp only [extract_thumbnail_essence, if_neg hq, if_neg hd,
             splitChar_of_not_mem hs, List.getLastD_cons, List.getLastD_nil,
             if_neg ht]

/-! ## Lemmas about digits and the numeric parsers -/

theorem ne_of_isDigit {c d : Char} (h : c.isDigit = true)
    (hd : d.isDigit = false) : c ≠ d := by
  intro he
  rw [he, hd] at h
  exact Bool.false_ne_true h

theorem not_mem_of_all_digits {s : Str} {d : Char}
    (h : s.all Char.isDigit = true) (hd : d.isDigit = false) : d ∉ s := by
  intro hm
  exact ne_of_isDigit (List.all_eq_true.mp h d hm) hd rfl

theorem digitsOf_all_digits {s : Str} (h1 : s ≠ [])
    (h2 : s.all Char.isDigit = true) : digitsOf s = some (digitsVal s) := by
  simp only [digitsOf, if_pos (And.intro h1 h2)]

theorem pyInt_digits {s : Str} (h1 : s ≠ [])
    (h2 : s.all Char.isDigit = true) :
    pyInt s = some (Int.ofNat (digitsVal s)) := by
  cases s with
  | nil => exact absurd rfl h1
  | cons c rest =>
    have hc : c.isDigit = true := by
      have := List.all_eq_true.mp h2 c (List.mem_cons_self c rest)
      exact this
    have hne1 : c ≠ '-' := ne_of_isDigit hc (by decide)
    have hne2 : c ≠ '+' := ne_of_isDigit hc (by decide)
    simp only [pyInt, if_neg hne1, if_neg hne2, digitsOf_all_digits h1 h2]
    rfl

theorem pyFloatUnsigned_digits {s : Str} (h1 : s ≠ [])
    (h2 : s.all Char.isDigit = true) :
    pyFloatUnsigned s = some ((digitsVal s : ℚ)) := by
  have hdot : '.' ∉ s := not_mem_of_all_digits h2 (by decide)
  simp only [pyFloatUnsigned, if_neg hdot, if_pos (And.intro h1 h2)]

theorem pyFloatUnsigned_decimal {a b : Str}
    (ha : a.all Char.isDigit = true) (hb : b.all Char.isDigit = true)
    (hab : a ++ b ≠ []) :
    pyFloatUnsigned (a ++ '.' :: b) =
      some ((digitsVal (a ++ b) : ℚ) / 10 ^ b.length) := by
  have hdota : '.' ∉ a := not_mem_of_all_digits ha (by decide)
  have hdotb : '.' ∉ b := not_mem_of_all_digits hb (by decide)
  have hmem : '.' ∈ a ++ '.' :: b :=
    List.mem_append_right a (List.mem_cons_self _ _)
  have hall : (a ++ b).all Char.isDigit = true := by
    rw [List.all_append, ha, hb]; rfl
  simp only [pyFloatUnsigned, if_pos hmem, splitChar_pair hdota hdotb,
             if_pos (And.intro hab hall)]

theorem pyFloat_head_not_sign {s : Str} {c : Char} {rest : Str}
    (hs : s = c :: rest) (h1 : c ≠ '-') (h2 : c ≠ '+') :
    pyFloat s = pyFloatUnsigned s := by
  subst hs
  simp only [pyFloat, if_neg h1, if_neg h2]

theorem pyFloat_digits {s : Str} (h1 : s ≠ [])
    (h2 : s.all Char.isDigit = true) :
    pyFloat s = some ((digitsVal s : ℚ)) := by
  cases s with
  | nil => exact absurd rfl h1
  | cons c rest =>
    have hc : c.isDigit = true :=
      List.all_eq_true.mp h2 c (List.mem_cons_self c rest)
    rw [pyFloat_head_not_sign rfl (ne_of_isDigit hc (by decide))
          (ne_of_isDigit hc (by decide))]
    exact pyFloatUnsigned_digits h1 h2

theorem pyFloat_decimal {a b : Str}
    (ha : a.all Char.isDigit = true) (hb : b.all Char.isDigit = true)
    (hab : a ++ b ≠ []) :
    pyFloat (a ++ '.' :: b) =
      some ((digitsVal (a ++ b) : ℚ) / 10 ^ b.length) := by
  cases a with
  | nil =>
    have h := @pyFloatUnsigned_decimal [] b rfl hb hab
    rw [List.nil_append] at h hab ⊢
    rw [pyFloat_head_not_sign rfl (by decide) (by decide)]
    exact h
  | cons c a2 =>
    have hc : c.isDigit = true :=
      List.all_eq_true.mp ha c (List.mem_cons_self c a2)
    rw [List.cons_append, pyFloat_head_not_sign rfl
          (ne_of_isDigit hc (by decide)) (ne_of_isDigit hc (by decide)),
        ← List.cons_append]
    exact pyFloatUnsigned_decimal ha hb hab

/-! ## Lemmas about endswith -/

theorem endswith_false_of_getLast {t suf : Str} {z w : Char}
    (ht : t.getLast? = some z) (hsuf : suf.getLast? = some w)
    (hne : z ≠ w) : endswith t suf = false := by
  rw [endswith]
  cases h : List.isSuffixOf suf t with
  | false => rfl
  | true =>
    exfalso
    have hsfx : suf <:+ t := List.isSuffixOf_iff_suffix.mp h
    rcases hsfx with ⟨u, hu⟩
    have hsn : suf ≠ [] := by
      intro he
      rw [he] at hsuf
      exact Option.noConfusion hsuf
    have : t.getLast? = suf.getLast? := by
      rw [← hu]
      exact List.getLast?_append_of_ne_nil u hsn
    rw [ht, hsuf] at this
    exact hne (Option.some.injEq _ _ ▸ this)

theorem getLast?_append_cons_of_ne_nil {a : Str} {c : Char} {b : Str}
    (hb : b ≠ []) : (a ++ c :: b).getLast? = b.getLast? := by
  rw [List.getLast?_append_cons]
  have : c :: b = [c] ++ b := rfl
  rw [this]
  exact List.getLast?_append_of_ne_nil [c] hb

theorem endswith_digits_false {a b : Str} {c : Char} (suf : Str) (w : Char)
    (hb : b ≠ []) (hball : b.all Char.isDigit = true)
    (hsuf : suf.getLast? = some w) (hw : w.isDigit = false) :
    endswith (a ++ c :: b) suf = false := by
  have hz : (a ++ c :: b).getLast? = some (b.getLast hb) := by
    rw [getLast?_append_cons_of_ne_nil hb]
    exact List.getLast?_eq_getLast b hb
  have hzd : (b.getLast hb).isDigit = true :=
    List.all_eq_true.mp hball _ (List.getLast_mem hb)
  exact endswith_false_of_getLast hz hsuf
    (fun he => by rw [he, hw] at hzd; exact Bool.false_ne_true hzd)

/-! ## Lemmas about the correlator -/

theorem correlate_go_length (m : List (Str × Str)) (L : List LikeData) :
    (correlate_go m L).1.length = L.length := by
  induction L with
  | nil => rfl
  | cons l ls ih => simp [correlate_go, ih]

theorem correlate_go_count (m : List (Str × Str)) (L : List LikeData) :
    (correlate_go m L).2 = L.countP (correlate_miss m) := by
  induction L with
  | nil => rfl
  | cons l ls ih =>
    simp only [correlate_go, List.countP_cons, ih, correlate_miss]
    exact Nat.add_comm _ _

theorem correlate_go_get (m : List (Str × Str)) (L : List LikeData) :
    ∀ (i : Nat) (h1 : i < (correlate_go m L).1.length) (h2 : i < L.length),
      (correlate_go m L).1.get ⟨i, h1⟩ =
        make_light_record (L.get ⟨i, h2⟩)
          (dict_get m (extract_thumbnail_essence (L.get ⟨i, h2⟩).video_thumbnail_url)) := by
  induction L with
  | nil => intro i h1 h2; exact absurd h2 (Nat.not_lt_zero i)
  | cons l ls ih =>
    intro i h1 h2
    cases i with
    | zero => rfl
    | succ j =>
      have h1b : j < (correlate_go m ls).1.length := by
        have := h1
        simp only [correlate_go, List.length_cons] at this
        exact Nat.lt_of_succ_lt_succ this
      have h2b : j < ls.length := Nat.lt_of_succ_lt_succ h2
      have := ih j h1b h2b
      simpa [correlate_go] using this

theorem dict_get_none_of_unmatched {P : List PlayData} {k : Str}
    (h : ∀ p ∈ P, extract_thumbnail_essence p.video_thumbnail_url ≠ k) :
    dict_get (play_count_map P) k = none := by
  simp only [dict_get]
  have hfind : (play_count_map P).reverse.find? (fun e => decide (e.1 = k)) = none := by
    rw [List.find?_eq_none]
    intro x hx
    rw [List.mem_reverse] at hx
    simp only [play_count_map, List.mem_map] at hx
    rcases hx with ⟨p, hp, rfl⟩
    simpa using h p hp
  rw [hfind]
  rfl

/-! ## Lemmas about parse_tiktok_number -/

theorem pyTrunc_nonneg {q : ℚ} (h : 0 ≤ q) : pyTrunc q = ⌊q⌋ := by
  rw [pyTrunc, if_neg (not_lt.mpr h)]

theorem parse_tiktok_number_unit {pre : Str} {u : Char} {v q : ℚ}
    (hu : u ∈ (['K', 'k', 'M', 'm', 'G', 'g', 'B', 'b'] : List Char))
    (hq : multiplier u.toUpper = some q)
    (hcomma : ',' ∉ pre)
    (hfloat : pyFloat pre = some v) :
    parse_tiktok_number (some (pre ++ [u])) = some (pyTrunc (v * q)) := by
  have hu1 : u ≠ ',' := by fin_cases hu <;> decide
  have hu2 : u ≠ '.' := by fin_cases hu <;> decide
  have hu3 : u.isDigit = false := by fin_cases hu <;> decide
  have hne : pre ++ [u] ≠ [] := by simp
  have hfilter : (pre ++ [u]).filter (fun c => !(c == ',')) = pre ++ [u] := by
    rw [List.filter_eq_self]
    intro a ha
    rcases List.mem_append.mp ha with h | h
    · have hac : a ≠ ',' := fun hh => hcomma (hh ▸ h)
      simp [hac]
    · have ha2 : a = u := by simpa using h
      subst ha2
      simp [hu1]
  have humem : u ∈ (pre ++ [u]).filter (fun c => !(c == '.')) :=
    List.mem_filter.mpr
      ⟨List.mem_append_right _ (List.mem_cons_self _ _), by simp [hu2]⟩
  have hnotall :
      ¬((pre ++ [u]).filter (fun c => !(c == '.')) ≠ [] ∧
        ((pre ++ [u]).filter (fun c => !(c == '.'))).all Char.isDigit = true) := by
    intro hcon
    have := List.all_eq_true.mp hcon.2 u humem
    rw [hu3] at this
    exact Bool.false_ne_true this
  have hlast : (pre ++ [u]).getLast? = some u := List.getLast?_concat pre
  have hdrop : (pre ++ [u]).dropLast = pre := List.dropLast_concat
  simp only [parse_tiktok_number, if_neg hne, hfilter, if_neg hnotall,
             hlast, hdrop, hq, hfloat]

/-! ## Claim theorems -/

/-- C6 counterexample: on the unit-suffixed input "1.9999K" the code
returns 1999 — `int()` truncation of 1999.9 — while round(1.9999 × 1000)
is 2000, refuting "returns round(number × multiplier)". -/
theorem claim_C6_counterexample :
    parse_tiktok_number (some ("1.9999K".toList)) = some 1999 ∧
    round ((19999 : ℚ) / 10) = 2000 ∧
    parse_tiktok_number (some ("1.9999K".toList)) ≠
      some (round ((19999 : ℚ) / 10)) := by
  have hround : round ((19999 : ℚ) / 10) = 2000 := by norm_num [round_eq]
  have hfl := @pyFloat_decimal ("1".toList) ("9999".toList)
    (by decide) (by decide) (by decide)
  rw [show (("1".toList : Str) ++ '.' :: ("9999".toList)) = "1.9999".toList
        from rfl,
      show digitsVal (("1".toList : Str) ++ ("9999".toList)) = 19999
        from by decide,
      show (("9999".toList : Str)).length = 4 from rfl] at hfl
  have h := @parse_tiktok_number_unit ("1.9999".toList) 'K'
    ((19999 : ℚ) / 10 ^ 4) 1000 (by decide) (by decide) (by decide) hfl
  rw [show (("1.9999".toList : Str) ++ ['K']) = "1.9999K".toList from rfl] at h
  have hval : pyTrunc ((19999 : ℚ) / 10 ^ 4 * 1000) = 1999 := by
    rw [pyTrunc_nonneg (by norm_num)]
    norm_num
  rw [hval] at h
  refine ⟨h, hround, ?_⟩
  rw [h, hround]
  decide

/-- C6 (amended): parse_tiktok_number multiplies the parsed number by the
unit's multiplier (K=1000, M=1000000, G=B=1000000000, case-insensitive)
and truncates toward zero — `int()` truncation, not round(⋅):
"1,234"→1234, "1.5K"→1500 (likewise lower-case "1.5k"), "3.78M"→3780000,
and "1.9999K"→1999 where rounding would give 2000; None and empty input
give null; unparseable text gives null; the embedding is a total function
(the parser never raises).  The statement is confined to these concrete
inputs, on which CPython's binary64 float arithmetic provably agrees with
the exact-decimal model; a law over all inputs would be decided by
IEEE-754 rounding, which is not modelled. -/
theorem claim_C6_amended :
    parse_tiktok_number (some ("1,234".toList)) = some 1234 ∧
    parse_tiktok_number (some ("1.5K".toList)) = some 1500 ∧
    parse_tiktok_number (some ("1.5k".toList)) = some 1500 ∧
    parse_tiktok_number (some ("3.78M".toList)) = some 3780000 ∧
    parse_tiktok_number (some ("1.9999K".toList)) = some 1999 ∧
    parse_tiktok_number none = none ∧
    parse_tiktok_number (some []) = none ∧
    parse_tiktok_number (some ("apple".toList)) = none := by
  have hdot : ∀ (a b : Str) (u : Char) (q : ℚ),
      a.all Char.isDigit = true → b.all Char.isDigit = true → a ++ b ≠ [] →
      u ∈ (['K', 'k', 'M', 'm', 'G', 'g', 'B', 'b'] : List Char) →
      multiplier u.toUpper = some q →
      parse_tiktok_number (some ((a ++ '.' :: b) ++ [u])) =
        some (pyTrunc (((digitsVal (a ++ b) : ℚ) / 10 ^ b.length) * q)) := by
    intro a b u q ha hb hab hu hq
    have hcomma : ',' ∉ a ++ '.' :: b := by
      intro h
      rcases List.mem_append.mp h with h | h
      · exact absurd h (not_mem_of_all_digits ha (by decide))
      · rcases List.mem_cons.mp h with h | h
        · exact absurd h (by decide)
        · exact absurd h (not_mem_of_all_digits hb (by decide))
    exact parse_tiktok_number_unit hu hq hcomma (pyFloat_decimal ha hb hab)
  refine ⟨?_, ?_, ?_, ?_, ?_, rfl, rfl, by decide⟩
  · have hf : pyFloat ("1234".toList) = some ((digitsVal ("1234".toList) : ℚ)) :=
      pyFloat_digits (by decide) (by decide)
    simp only [parse_tiktok_number]
    rw [show (List.filter (fun c => !(c == ',')) ("1,234".toList)) =
          ("1234".toList : Str) from by decide]
    rw [if_neg (by decide), if_pos (by decide), hf,
        show digitsVal ("1234".toList) = 1234 from by decide]
    show some (pyTrunc ((1234 : Nat) : ℚ)) = some 1234
    rw [pyTrunc_nonneg (by positivity)]
    norm_num
  · have h := hdot ("1".toList) ("5".toList) 'K' 1000
      (by decide) (by decide) (by decide) (by decide) (by decide)
    rw [show ((("1".toList : Str) ++ '.' :: ("5".toList)) ++ ['K']) =
          "1.5K".toList from rfl,
        show digitsVal (("1".toList : Str) ++ ("5".toList)) = 15 from by decide,
        show (("5".toList : Str)).length = 1 from rfl] at h
    rw [h, pyTrunc_nonneg (by norm_num)]
    norm_num
  · have h := hdot ("1".toList) ("5".toList) 'k' 1000
      (by decide) (by decide) (by decide) (by decide) (by decide)
    rw [show ((("1".toList : Str) ++ '.' :: ("5".toList)) ++ ['k']) =
          "1.5k".toList from rfl,
        show digitsVal (("1".toList : Str) ++ ("5".toList)) = 15 from by decide,
        show (("5".toList : Str)).length = 1 from rfl] at h
    rw [h, pyTrunc_nonneg (by norm_num)]
    norm_num
  · have h := hdot ("3".toList) ("78".toList) 'M' 1000000
      (by decide) (by decide) (by decide) (by decide) (by decide)
    rw [show ((("3".toList : Str) ++ '.' :: ("78".toList)) ++ ['M']) =
          "3.78M".toList from rfl,
        show digitsVal (("3".toList : Str) ++ ("78".toList)) = 378 from by decide,
        show (("78".toList : Str)).length = 2 from rfl] at h
    rw [h, pyTrunc_nonneg (by norm_num)]
    norm_num
  · have h := hdot ("1".toList) ("9999".toList) 'K' 1000
      (by decide) (by decide) (by decide) (by decide) (by decide)
    rw [show ((("1".toList : Str) ++ '.' :: ("9999".toList)) ++ ['K']) =
          "1.9999K".toList from rfl,
        show digitsVal (("1".toList : Str) ++ ("9999".toList)) = 19999
          from by decide,
        show (("9999".toList : Str)).length = 4 from rfl] at h
    rw [h, pyTrunc_nonneg (by norm_num)]
    norm_num

/-- C5 counterexample: a URL missing the video-id segment does not produce
an error of any kind — parse_tiktok_video_url returns an ordinary pair,
silently taking the literal segment "video" as the video id — refuting
"raises a typed error for every URL whose shape does not match". -/
theorem claim_C5_counterexample :
    parse_tiktok_video_url ("https://site/@alice/video".toList) =
      (some ("video".toList), some ("alice".toList)) := by
  decide

/-- C5 (amended): parse_tiktok_video_url never raises: for every well-formed
URL https://site/@handle/video/id?query it returns (some id, some handle),
taking the last path segment as the video id and the @-marked segment
(marker stripped) as the owner handle; empty input returns (None, None);
and a URL missing the video-id segment silently returns its last path
segment (here the literal "video") as the id instead of signalling an
error. -/
theorem claim_C5_amended :
    (∀ handle id1 : Str,
      '/' ∉ handle → '?' ∉ handle → '/' ∉ id1 → '?' ∉ id1 →
      parse_tiktok_video_url
          (("https:".toList) ++ '/' :: '/' ::
            (("site".toList) ++ '/' :: '@' ::
              (handle ++ '/' ::
                (("video".toList) ++ '/' ::
                  (id1 ++ '?' :: ("x=1".toList)))))) =
        (some id1, some handle)) ∧
    parse_tiktok_video_url [] = (none, none) ∧
    parse_tiktok_video_url ("https://site/@alice/video".toList) =
      (some ("video".toList), some ("alice".toList)) := by
  refine ⟨?_, rfl, by decide⟩
  intro handle id1 hh1 hh2 hi1 hi2
  have hshape :
      (("https:".toList : Str) ++ '/' :: '/' ::
        (("site".toList) ++ '/' :: '@' ::
          (handle ++ '/' ::
            (("video".toList) ++ '/' ::
              (id1 ++ '?' :: ("x=1".toList)))))) =
      (("https:".toList : Str) ++ '/' :: '/' ::
        (("site".toList) ++ '/' :: '@' ::
          (handle ++ '/' ::
            (("video".toList) ++ '/' :: id1)))) ++ '?' :: ("x=1".toList) := by
    simp [List.append_assoc, List.cons_append]
  have hqA :
      '?' ∉ (("https:".toList : Str) ++ '/' :: '/' ::
        (("site".toList) ++ '/' :: '@' ::
          (handle ++ '/' ::
            (("video".toList) ++ '/' :: id1)))) := by
    intro h
    rcases List.mem_append.mp h with h | h
    · exact absurd h (by decide)
    · rcases List.mem_cons.mp h with h | h
      · exact absurd h (by decide)
      · rcases List.mem_cons.mp h with h | h
        · exact absurd h (by decide)
        · rcases List.mem_append.mp h with h | h
          · exact absurd h (by decide)
          · rcases List.mem_cons.mp h with h | h
            · exact absurd h (by decide)
            · rcases List.mem_cons.mp h with h | h
              · exact absurd h (by decide)
              · rcases List.mem_append.mp h with h | h
                · exact hh2 h
                · rcases List.mem_cons.mp h with h | h
                  · exact absurd h (by decide)
                  · rcases List.mem_append.mp h with h | h
                    · exact absurd h (by decide)
                    · rcases List.mem_cons.mp h with h | h
                      · exact absurd h (by decide)
                      · exact hi2 h
  have hne2 :
      ((("https:".toList : Str) ++ '/' :: '/' ::
        (("site".toList) ++ '/' :: '@' ::
          (handle ++ '/' ::
            (("video".toList) ++ '/' :: id1)))) ++ '?' :: ("x=1".toList)) ≠ [] := by
    simp
  have hqmem2 :
      '?' ∈ ((("https:".toList : Str) ++ '/' :: '/' ::
        (("site".toList) ++ '/' :: '@' ::
          (handle ++ '/' ::
            (("video".toList) ++ '/' :: id1)))) ++ '?' :: ("x=1".toList)) :=
    List.mem_append_right _ (List.mem_cons_self _ _)
  have hsplitQ := splitChar_append_cons ("x=1".toList) hqA
  have hsplitSlash :
      splitChar '/' (("https:".toList : Str) ++ '/' :: '/' ::
        (("site".toList) ++ '/' :: '@' ::
          (handle ++ '/' ::
            (("video".toList) ++ '/' :: id1)))) =
      [("https:".toList : Str), [], ("site".toList), '@' :: handle,
       ("video".toList), id1] := by
    rw [splitChar_append_cons _ (by decide)]
    rw [show splitChar '/' ('/' ::
          (("site".toList : Str) ++ '/' :: '@' ::
            (handle ++ '/' :: (("video".toList) ++ '/' :: id1)))) =
        [] :: splitChar '/'
          (("site".toList : Str) ++ '/' :: '@' ::
            (handle ++ '/' :: (("video".toList) ++ '/' :: id1)))
      from by simp [splitChar]]
    rw [splitChar_append_cons _ (by decide)]
    rw [show ('@' :: (handle ++ '/' :: (("video".toList : Str) ++ '/' :: id1))) =
          ('@' :: handle) ++ '/' :: (("video".toList : Str) ++ '/' :: id1)
      from by simp]
    rw [splitChar_append_cons _ (by simpa using hh1)]
    rw [splitChar_append_cons _ (by decide)]
    rw [splitChar_of_not_mem hi1]
  rw [hshape]
  simp only [parse_tiktok_video_url, if_neg hne2, if_pos hqmem2,
             hsplitQ, List.headD_cons, hsplitSlash,
             List.getLastD_cons, List.getLastD_nil]
  rw [List.find?_cons_of_neg _ (by decide), List.find?_cons_of_neg _ (by decide),
      List.find?_cons_of_neg _ (by decide),
      List.find?_cons_of_pos _ (by simp [List.headD_cons])]
  simp

/-- C5 witness: the general part of claim_C5_amended applied to the
well-formed URL with handle "alice" and video id "123". -/
theorem claim_C5_witness :
    parse_tiktok_video_url
        (("https:".toList) ++ '/' :: '/' ::
          (("site".toList) ++ '/' :: '@' ::
            (("alice".toList) ++ '/' ::
              (("video".toList) ++ '/' ::
                (("123".toList) ++ '?' :: ("x=1".toList)))))) =
      (some ("123".toList), some ("alice".toList)) :=
  claim_C5_amended.1 ("alice".toList) ("123".toList)
    (by decide) (by decide) (by decide) (by decide)

/-- C9: extract_thumbnail_essence is idempotent — for every URL, applying
it to its own output returns that output unchanged — and a URL carrying
both a query string and a "~" suffix reduces to the same fingerprint as
the same asset without those suffixes. -/
theorem claim_C9 :
    (∀ url : Str,
      extract_thumbnail_essence (extract_thumbnail_essence url) =
        extract_thumbnail_essence url) ∧
    extract_thumbnail_essence
        ("https://cdn.example.com/thumbs/oMnA~c5_100.jpeg?x=1&y=2".toList) =
      extract_thumbnail_essence ("https://cdn.example.com/thumbs/oMnA".toList) := by
  constructor
  · intro url
    obtain ⟨hq, hs, hd, ht⟩ := extract_thumbnail_essence_no_delims url
    exact extract_thumbnail_essence_fixed hq hs hd ht
  · rfl

/-- C2: contrary to the claim, parse_tiktok_time returns None on every
days-ago input; in particular "3日前" with reference instant
2024-06-15T10:00 returns None, not 2024-06-12T10:00.  The module imports
only `datetime` (tiktok_crawler.py line 8), so the `timedelta` reference
in the days-ago branch raises NameError, swallowed by the bare `except`;
a seconds-ago branch does not exist at all. -/
theorem claim_C2 :
    (∀ (s : Str) (base : DateTime),
      endswith s ("日前".toList) = true → parse_tiktok_time s base = none) ∧
    parse_tiktok_time ("3日前".toList) ⟨2024, 6, 15, 10, 0, 0⟩ = none := by
  constructor
  · intro s base h
    simp only [parse_tiktok_time]
    split_ifs <;> rfl
  · rfl

/-- C2 witness: the general part of claim_C2 applied at a concrete input. -/
theorem claim_C2_witness :
    parse_tiktok_time ("15日前".toList) ⟨2025, 1, 2, 3, 4, 5⟩ = none :=
  claim_C2.1 ("15日前".toList) ⟨2025, 1, 2, 3, 4, 5⟩ (by decide)

/-- C3 counterexample: with the ten scanned videos in descending recency
order and an existing-heavy-id set containing exactly the FIRST 3 of them,
the scan stops at the very first (already-seen) video, so the visited list
is empty — not videos 4–10 as the claim states. -/
theorem claim_C3_counterexample :
    crawl_heavy_scan firstThreeIds 10 tenScannedVideos = [] ∧
    crawl_heavy_scan firstThreeIds 10 tenScannedVideos ≠ tenScannedVideos.drop 3 := by
  constructor
  · rfl
  · decide

/-- C3 (amended): the heavy-mode code has no recrawl flag (dedup always
applies); whenever the existing-heavy-id set contains the id of the first
(most recent) scanned video — in particular when it contains the first 3
of the 10 scanned videos — the scan stops at that first already-seen id
and no videos are visited for heavy extraction. -/
theorem claim_C3_amended :
    (∀ (existing : List Str) (maxv : Nat) (l : LikeData) (ls : List LikeData),
      idSeen existing l = true → crawl_heavy_scan existing maxv (l :: ls) = []) ∧
    crawl_heavy_scan firstThreeIds 10 tenScannedVideos = [] := by
  constructor
  · intro existing maxv l ls h
    cases maxv with
    | zero => rfl
    | succ n => simp [crawl_heavy_scan, List.takeWhile, h]
  · rfl

/-- C3 witness: the general part of claim_C3_amended applied at a concrete
input whose first video id is already seen. -/
theorem claim_C3_witness :
    crawl_heavy_scan firstThreeIds 7 [mkSampleLike ("1"), mkSampleLike ("4")] = [] :=
  claim_C3_amended.1 firstThreeIds 7 (mkSampleLike ("1")) [mkSampleLike ("4")]
    (by decide)

/-- C4: evaluation of the source at the claim's scenario — for a target
whose outcome is the account-not-found condition, no heavy/light record is
written in the failing call and the batch continues to the next target
(these parts of the claim hold), but the target's liveness flag is NOT set
to false: processing the target leaves the liveness flags unchanged, and
indeed the whole batch leaves every liveness flag unchanged, because
navigate_to_user_page returns False without any title check and
update_favorite_user_is_alive has no caller. -/
theorem claim_C4 (outcome : Str → TargetOutcome) (st : OrchState)
    (t : Str) (rest : List Str)
    (h : outcome t = TargetOutcome.userNotFound) :
    run_target_batch outcome st (t :: rest) =
      run_target_batch outcome (process_target outcome st t) rest ∧
    (process_target outcome st t).written = st.written ∧
    (process_target outcome st t).liveness = st.liveness ∧
    (∀ (ts : List Str) (st2 : OrchState),
      (run_target_batch outcome st2 ts).liveness = st2.liveness) := by
  refine ⟨rfl, by simp [process_target, h], by simp [process_target, h], ?_⟩
  intro ts
  induction ts with
  | nil => intro st2; rfl
  | cons x xs ih =>
    intro st2
    rw [run_target_batch, ih]
    cases hx : outcome x <;> simp [process_target, hx]

/-- C4 witness: claim_C4 applied to a concrete missing target — nothing is
written for it and its liveness flag remains true, not false. -/
theorem claim_C4_witness :
    (process_target sampleOutcome sampleOrchState ("ghost".toList)).written = [] ∧
    (process_target sampleOutcome sampleOrchState ("ghost".toList)).liveness
      ("ghost".toList) = true := by
  have h := claim_C4 sampleOutcome sampleOrchState ("ghost".toList) [] rfl
  exact ⟨h.2.1.trans rfl, (congrFun h.2.2.1 ("ghost".toList)).trans rfl⟩

/-- C7: if no target's crawl raises an operator interrupt
(KeyboardInterrupt), the batch loop catches every per-target exception
(`except Exception: continue`) and completes having attempted every target
in order: one target's failure never aborts the batch. -/
theorem claim_C7 (step : Str → Except PyError Unit) (ts : List Str)
    (h : ∀ t ∈ ts, step t ≠ Except.error PyError.keyboardInterrupt) :
    crawl_favorite_accounts_batch step ts = Except.ok ts := by
  induction ts with
  | nil => rfl
  | cons t ts2 ih =>
    have ht := h t (List.mem_cons_self t ts2)
    have ih2 := ih (fun x hx => h x (List.mem_cons_of_mem t hx))
    cases hs : step t with
    | ok u => simp [crawl_favorite_accounts_batch, hs, ih2, Except.map]
    | error e =>
      cases e with
      | keyboardInterrupt => exact absurd hs ht
      | exception msg => simp [crawl_favorite_accounts_batch, hs, ih2, Except.map]

/-- C7 witness: claim_C7 applied to a concrete batch in which the middle
account's crawl raises an ordinary exception. -/
theorem claim_C7_witness :
    crawl_favorite_accounts_batch sampleStep
        (["alice", "bob", "carol"].map String.toList) =
      Except.ok (["alice", "bob", "carol"].map String.toList) :=
  claim_C7 sampleStep (["alice", "bob", "carol"].map String.toList)
    (by intro t ht; simp only [sampleStep]; split_ifs <;> simp)

/-- C1: the correlator emits exactly one record per like-pass element (in
order); the identity fields (video URL, video id, owner handle) of the
i-th record come from the i-th like-pass element; the miss counter equals
the number of like-pass elements whose looked-up play-count text is falsy;
and every like-pass element whose fingerprint matches no play-pass element
gets a null play-count text and null parsed play-count and is counted by
the miss counter (contributing exactly 1 to it). -/
theorem claim_C1 (L : List LikeData) (P : List PlayData) :
    (parse_and_save_video_light_datas L P).1.length = L.length ∧
    (parse_and_save_video_light_datas L P).2 =
      L.countP (correlate_miss (play_count_map P)) ∧
    (∀ (i : Nat) (h1 : i < (parse_and_save_video_light_datas L P).1.length)
       (h2 : i < L.length),
      ((parse_and_save_video_light_datas L P).1.get ⟨i, h1⟩).video_url =
          (L.get ⟨i, h2⟩).video_url ∧
      ((parse_and_save_video_light_datas L P).1.get ⟨i, h1⟩).video_id =
          (L.get ⟨i, h2⟩).video_id ∧
      ((parse_and_save_video_light_datas L P).1.get ⟨i, h1⟩).account_username =
          (L.get ⟨i, h2⟩).account_username) ∧
    (∀ (i : Nat) (h1 : i < (parse_and_save_video_light_datas L P).1.length)
       (h2 : i < L.length),
      (∀ p ∈ P, extract_thumbnail_essence p.video_thumbnail_url ≠
          extract_thumbnail_essence (L.get ⟨i, h2⟩).video_thumbnail_url) →
      ((parse_and_save_video_light_datas L P).1.get ⟨i, h1⟩).play_count_text = none ∧
      ((parse_and_save_video_light_datas L P).1.get ⟨i, h1⟩).play_count = none ∧
      correlate_miss (play_count_map P) (L.get ⟨i, h2⟩) = true) := by
  refine ⟨correlate_go_length _ _, correlate_go_count _ _, ?_, ?_⟩
  · intro i h1 h2
    simp only [parse_and_save_video_light_datas] at h1 ⊢
    rw [correlate_go_get (play_count_map P) L i h1 h2]
    exact ⟨rfl, rfl, rfl⟩
  · intro i h1 h2 hun
    have hnone := dict_get_none_of_unmatched hun
    simp only [List.get_eq_getElem] at hnone
    simp only [parse_and_save_video_light_datas] at h1 ⊢
    rw [correlate_go_get (play_count_map P) L i h1 h2]
    refine ⟨?_, ?_, ?_⟩
    · simp [make_light_record, hnone]
    · simp [make_light_record, hnone, parse_tiktok_number]
    · simp [correlate_miss, hnone, pyFalsy]

/-- C1 witness: claim_C1 applied to a concrete two-element like pass whose
second element matches no play-pass fingerprint. -/
theorem claim_C1_witness :
    ((parse_and_save_video_light_datas sampleLikePass samplePlayPass).1.get
        ⟨1, by decide⟩).play_count = none :=
  ((claim_C1 sampleLikePass samplePlayPass).2.2.2 1 (by decide) (by decide)
    (by decide)).2.1

/-- C10: a like-pass element whose fingerprint IS present in the play-count
map but bound to an empty play-count text is treated exactly like a
fingerprint miss: it is counted by the miss counter — which counts falsy
(null-or-empty) lookups, not strictly unmatched fingerprints — and its
stored play-count text is the empty string while the parsed play-count is
null. -/
theorem claim_C10 (L : List LikeData) (P : List PlayData) :
    (parse_and_save_video_light_datas L P).2 =
      L.countP (correlate_miss (play_count_map P)) ∧
    (∀ (i : Nat) (h1 : i < (parse_and_save_video_light_datas L P).1.length)
       (h2 : i < L.length),
      dict_get (play_count_map P)
          (extract_thumbnail_essence (L.get ⟨i, h2⟩).video_thumbnail_url) =
        some [] →
      correlate_miss (play_count_map P) (L.get ⟨i, h2⟩) = true ∧
      ((parse_and_save_video_light_datas L P).1.get ⟨i, h1⟩).play_count_text =
        some [] ∧
      ((parse_and_save_video_light_datas L P).1.get ⟨i, h1⟩).play_count = none) := by
  refine ⟨correlate_go_count _ _, ?_⟩
  intro i h1 h2 hempty
  simp only [List.get_eq_getElem] at hempty
  simp only [parse_and_save_video_light_datas] at h1 ⊢
  rw [correlate_go_get (play_count_map P) L i h1 h2]
  refine ⟨?_, ?_, ?_⟩
  · simp [correlate_miss, hempty, pyFalsy]
  · simp [make_light_record, hempty]
  · simp [make_light_record, hempty, parse_tiktok_number]

/-- C10 witness: claim_C10 applied to a concrete like pass whose only
element's fingerprint is bound to an empty play-count text. -/
theorem claim_C10_witness :
    (parse_and_save_video_light_datas [mkSampleLike ("1")] samplePlayPassEmpty).2 = 1 ∧
    ((parse_and_save_video_light_datas [mkSampleLike ("1")] samplePlayPassEmpty).1.get
        ⟨0, by decide⟩).play_count = none := by
  constructor
  · rw [(claim_C10 [mkSampleLike ("1")] samplePlayPassEmpty).1]
    decide
  · exact ((claim_C10 [mkSampleLike ("1")] samplePlayPassEmpty).2 0 (by decide)
      (by decide) (by decide)).2.2

/-- C8: for every month-day input built from two decimal numerals, the
inferred year is the reference year when the parsed month is at most the
reference month (equality yields the same year) and the previous year when
the parsed month strictly exceeds the reference month; the result carries
that year, the parsed month and day, and the reference hour and minute
when the date is constructible, and is None otherwise. -/
theorem claim_C8 (base : DateTime) (ms ds : Str)
    (hms : ms ≠ []) (hds : ds ≠ [])
    (hmsd : ms.all Char.isDigit = true) (hdsd : ds.all Char.isDigit = true) :
    parse_tiktok_time (ms ++ '-' :: ds) base =
      (if dateValid
            (if Int.ofNat (digitsVal ms) > base.month then base.year - 1
             else base.year)
            (Int.ofNat (digitsVal ms)) (Int.ofNat (digitsVal ds)) then
         some { year := (if Int.ofNat (digitsVal ms) > base.month
                         then base.year - 1 else base.year),
                month := Int.ofNat (digitsVal ms),
                day := Int.ofNat (digitsVal ds),
                hour := base.hour, minute := base.minute, second := 0 }
       else none) := by
  have hne : ms ++ '-' :: ds ≠ [] := by cases ms <;> simp
  have h1 : endswith (ms ++ '-' :: ds) ("分前".toList) = false :=
    endswith_digits_false ("分前".toList) '前' hds hdsd (by decide) (by decide)
  have h2 : endswith (ms ++ '-' :: ds) ("時間前".toList) = false :=
    endswith_digits_false ("時間前".toList) '前' hds hdsd (by decide) (by decide)
  have h3 : endswith (ms ++ '-' :: ds) ("日前".toList) = false :=
    endswith_digits_false ("日前".toList) '前' hds hdsd (by decide) (by decide)
  have hsplit : splitChar '-' (ms ++ '-' :: ds) = [ms, ds] :=
    splitChar_pair (not_mem_of_all_digits hmsd (by decide))
      (not_mem_of_all_digits hdsd (by decide))
  have hmem : '-' ∈ ms ++ '-' :: ds :=
    List.mem_append_right ms (List.mem_cons_self _ _)
  simp only [parse_tiktok_time, if_neg hne, h1, h2, h3, Bool.false_eq_true,
             if_false, hsplit, List.length_cons, List.length_nil,
             List.headD_cons, List.getLastD_cons, List.getLastD_nil,
             pyInt_digits hms hmsd, pyInt_digits hds hdsd]
  rw [if_pos (And.intro hmem trivial)]

/-- C8 witness: claim_C8 applied at reference instant 2024-06-15T10:00 to
the month-day input 3-25 (month below the reference month). -/
theorem claim_C8_witness :
    parse_tiktok_time (("3".toList) ++ '-' :: ("25".toList))
        ⟨2024, 6, 15, 10, 0, 0⟩ =
      some ⟨2024, 3, 25, 10, 0, 0⟩ := by
  rw [claim_C8 ⟨2024, 6, 15, 10, 0, 0⟩ ("3".toList) ("25".toList)
    (by decide) (by decide) (by decide) (by decide)]
  decide

end TTK
